import Mathlib

/-!
Verification development for the folklore repository: a shallow embedding of its
event-tracking and message-correlation core (message_tracker.py, lore_monitor.py,
the routing part of discord_bot.py, kernel_monitor.py, github_monitor.py),
together with theorems settling the specification claims about that core.

Python dictionaries are modelled as insertion-ordered association lists with
CPython semantics: assignment to an existing key updates the value in place
(keeping the original position), assignment to a new key appends at the end.
Timestamps are natural numbers (epoch seconds).  Durable files are extra fields
of the state records; a write that "fails" leaves the file field unchanged,
mirroring the try/except blocks in the source that log and swallow the error.
-/

namespace Folklore

/-- Lookup in an insertion-ordered association list (Python `d.get(k)`). -/
def dget {κ α : Type} [DecidableEq κ] : List (κ × α) → κ → Option α
  | [], _ => none
  | (k1, v) :: t, k => if k1 = k then some v else dget t k

/-- Key membership (Python `k in d`). -/
def dmem {κ α : Type} [DecidableEq κ] (d : List (κ × α)) (k : κ) : Bool :=
  (dget d k).isSome

/-- Assignment `d[k] = v` with CPython ordering semantics: an existing key keeps
its position, a new key is appended at the end. -/
def dinsert {κ α : Type} [DecidableEq κ] : List (κ × α) → κ → α → List (κ × α)
  | [], k, v => [(k, v)]
  | (k1, v1) :: t, k, v =>
    if k1 = k then (k, v) :: t else (k1, v1) :: dinsert t k v

/-- Deletion `del d[k]`. -/
def ddel {κ α : Type} [DecidableEq κ] (d : List (κ × α)) (k : κ) : List (κ × α) :=
  d.filter (fun p => decide (p.1 ≠ k))

/-- Does the pattern occur at the head of the list. -/
def listStarts {α : Type} [DecidableEq α] : List α → List α → Bool
  | _, [] => true
  | [], _ :: _ => false
  | a :: l, b :: p => decide (a = b) && listStarts l p

/-- Does the pattern occur anywhere in the list (substring search). -/
def listHasSub {α : Type} [DecidableEq α] : List α → List α → Bool
  | [], p => listStarts [] p
  | a :: t, p => listStarts (a :: t) p || listHasSub t p

/-- The code points of a string (String operations themselves are kept out of
the definitions so that every filter evaluates inside the kernel). -/
def codes (s : String) : List Nat :=
  s.toList.map Char.toNat

/-- ASCII lowercasing of one code point, as Python str.lower does on ASCII. -/
def lowerCode (n : Nat) : Nat :=
  if 65 ≤ n && n ≤ 90 then n + 32 else n

/-- The code points of the Python `s.lower()`. -/
def lowerCodes (s : String) : List Nat :=
  (codes s).map lowerCode

/-- A key of a JSON object holding a Discord channel id: an `int` while the map
lives in memory, a `str` after a round trip through `json.dump`/`json.load`. -/
inductive CKey : Type
  | int (n : Nat)
  | str (s : String)
deriving DecidableEq, Repr

/-- `{channel_id: discord_message_id}` mapping returned by one fan-out. -/
abbrev HandleMap := List (CKey × Nat)

/-- What `json.dump` does to one handle map: every `int` key becomes its decimal
string (JSON object keys are strings), so `json.load` gives back `str` keys. -/
def jsonDumpHandles (hm : HandleMap) : HandleMap :=
  hm.map (fun p =>
    (match p.1 with
     | CKey.int n => CKey.str (toString n)
     | CKey.str s => CKey.str s, p.2))

/-- `json.dump` applied to the whole `message_map` (outer keys are already
strings, inner channel-id keys get stringified). -/
def jsonDumpMap (mm : List (String × HandleMap)) : List (String × HandleMap) :=
  mm.map (fun p => (p.1, jsonDumpHandles p.2))

/-- One lore message in the internal format produced by fetch_lore_messages. -/
structure Msg where
  id : String
  subject : String
  fromAddr : String
  date : String
  url : String
  subsystem : String
  refs : List String
deriving DecidableEq, Repr

/-- Is the sender pr-tracker-bot (merge confirmation), per the check
`pr-tracker-bot@kernel.org in msg.get(from, ).lower()`. -/
def isBotSender (m : Msg) : Bool :=
  listHasSub (lowerCodes m.fromAddr) (codes "pr-tracker-bot@kernel.org")

/-- The filter of check_git_pull_requests: skip pr-tracker-bot senders, skip
replies (subject lowercased starts with re and a colon), keep subjects
containing a GIT PULL marker (either exact case or lowercased). -/
def isPullCandidate (m : Msg) : Bool :=
  !isBotSender m
    && !listStarts (lowerCodes m.subject) (codes "re: ")
    && (listHasSub (codes m.subject) (codes "[GIT PULL]")
        || listHasSub (lowerCodes m.subject) (codes "[git pull]"))

/-- State of LoreMonitor: the in-memory seen_messages dict (id to first-seen
epoch seconds) and the contents of seen_messages.json. -/
structure LoreState where
  seen : List (String × Nat)
  disk : List (String × Nat)
deriving DecidableEq, Repr

/-- _save_seen_messages: first evict in-memory entries older than three days,
then write the file; a failed write (writeOk = false) is logged and swallowed,
leaving the file as it was. -/
def saveSeen (writeOk : Bool) (now : Nat) (st : LoreState) : LoreState :=
  let seen1 := st.seen.filter (fun p => decide (now - 3 * 24 * 60 * 60 < p.2))
  { seen := seen1, disk := if writeOk then seen1 else st.disk }

/-- Restart of LoreMonitor: _load_seen_messages reads the file back. -/
def reloadLore (st : LoreState) : LoreState :=
  { seen := st.disk, disk := st.disk }

/-- The shared per-message step of check_git_pull_requests and
check_pr_bot_messages: if the message passes the filter and its id is not in
seen_messages, mark it seen (with _save_seen_messages) and emit it. -/
def scanStep (filt : Msg → Bool) (writeOk : Bool) (now : Nat)
    (st : LoreState) (m : Msg) : LoreState × List Msg :=
  if filt m then
    if dmem st.seen m.id then (st, [])
    else (saveSeen writeOk now { st with seen := dinsert st.seen m.id now }, [m])
  else (st, [])

/-- The message loop shared by both checkers, over one fetched batch. -/
def scanList (filt : Msg → Bool) (writeOk : Bool) (now : Nat) :
    LoreState → List Msg → LoreState × List Msg
  | st, [] => (st, [])
  | st, m :: ms =>
    let p := scanStep filt writeOk now st m
    let q := scanList filt writeOk now p.1 ms
    (q.1, p.2 ++ q.2)

/-- check_git_pull_requests on one batch: filter for original GIT PULL
submissions, deduplicate against seen_messages. -/
def check_git_pull_requests (writeOk : Bool) (now : Nat)
    (st : LoreState) (batch : List Msg) : LoreState × List Msg :=
  scanList isPullCandidate writeOk now st batch

/-- check_pr_bot_messages on the same batch: filter for pr-tracker-bot merge
confirmations, deduplicate against seen_messages. -/
def check_pr_bot_messages (writeOk : Bool) (now : Nat)
    (st : LoreState) (batch : List Msg) : LoreState × List Msg :=
  scanList isBotSender writeOk now st batch

/-- The pending-PR metadata stored by add_pending_pr. -/
structure PendingPR where
  subject : String
  subsystem : String
  fromAddr : String
  date : String
  url : String
deriving DecidableEq, Repr

/-- The fields add_pending_pr extracts from the message dict. -/
def pendingOf (m : Msg) : PendingPR :=
  { subject := m.subject, subsystem := m.subsystem, fromAddr := m.fromAddr
    date := m.date, url := m.url }

/-- State of MessageTracker: the two in-memory dicts plus the contents of
message_map.json and pending_prs.json. -/
structure TrackerState where
  message_map : List (String × HandleMap)
  pending_prs : List (String × PendingPR)
  disk_map : List (String × HandleMap)
  disk_pending : List (String × PendingPR)
deriving DecidableEq, Repr

/-- MessageTracker.store: assign the handle map, then _save; a failed write
(writeOk = false) is logged and swallowed, leaving the file as it was. -/
def store (writeOk : Bool) (tr : TrackerState) (id : String) (hm : HandleMap) :
    TrackerState :=
  let mm := dinsert tr.message_map id hm
  { tr with
    message_map := mm
    disk_map := if writeOk then jsonDumpMap mm else tr.disk_map }

/-- MessageTracker.get_channel_messages. -/
def get_channel_messages (tr : TrackerState) (id : String) : HandleMap :=
  (dget tr.message_map id).getD []

/-- MessageTracker.get_channel_messages_by_refs: walk the refs in order and
return the first mapping that is truthy (present and non-empty). -/
def get_channel_messages_by_refs (mm : List (String × HandleMap)) :
    List String → HandleMap
  | [] => []
  | r :: rest =>
    match dget mm r with
    | some hm => if hm.isEmpty then get_channel_messages_by_refs mm rest else hm
    | none => get_channel_messages_by_refs mm rest

/-- MessageTracker.add_pending_pr, with _save_pending. -/
def add_pending_pr (writeOk : Bool) (tr : TrackerState) (m : Msg) : TrackerState :=
  let pp := dinsert tr.pending_prs m.id (pendingOf m)
  { tr with
    pending_prs := pp
    disk_pending := if writeOk then pp else tr.disk_pending }

/-- MessageTracker.mark_pr_merged: remove from pending if present (and save);
removing an absent key is a no-op. -/
def mark_pr_merged (tr : TrackerState) (id : String) : TrackerState :=
  if dmem tr.pending_prs id then
    let pp := ddel tr.pending_prs id
    { tr with pending_prs := pp, disk_pending := pp }
  else tr

/-- Python slice `items[-n:]` for a natural n: for n = 0 the slice bound is
`-0 == 0`, so the WHOLE list is kept; otherwise the last n items. -/
def pySliceLast {α : Type} (n : Nat) (l : List α) : List α :=
  if n = 0 then l else l.drop (l.length - n)

/-- MessageTracker.cleanup_old_entries: when the map holds more than
max_entries items, keep `items[-max_entries:]` and save. -/
def cleanup_old_entries (tr : TrackerState) (max_entries : Nat) : TrackerState :=
  if max_entries < tr.message_map.length then
    let mm := pySliceLast max_entries tr.message_map
    { tr with message_map := mm, disk_map := jsonDumpMap mm }
  else tr

/-- Restart of MessageTracker: _load reads both files back. -/
def reloadTracker (tr : TrackerState) : TrackerState :=
  { message_map := tr.disk_map, pending_prs := tr.disk_pending
    disk_map := tr.disk_map, disk_pending := tr.disk_pending }

/-- The call at the end of check_subsystem_activity is
`self.message_tracker.cleanup_old_pending_prs(max_age_days=21)`, but
MessageTracker defines no attribute of that name, so at runtime the call
raises AttributeError instead of evicting anything. -/
def cleanup_old_pending_prs_call (_tr : TrackerState) : Except String TrackerState :=
  Except.error "AttributeError: MessageTracker has no attribute cleanup_old_pending_prs"

/-- One configured sink: a channel together with its subscribed subsystem set
(the per-entry {channel, subsystems} objects of self.subscriptions). -/
structure Subscription where
  channelId : Nat
  subsystems : List String
deriving DecidableEq, Repr

/-- The loop body of send_to_subscribed_channels: for each subscription in
order, if it is subscribed to the subsystem (or to the wildcard), attempt the
send; a failed send (deliver returns none) is logged and the loop continues;
a successful send records message_map[channel.id] = msg.id. -/
def sendLoop (deliver : Nat → Option Nat) (subsystem : String) :
    List Subscription → HandleMap → HandleMap
  | [], acc => acc
  | sub :: rest, acc =>
    if sub.subsystems.contains "*" || sub.subsystems.contains subsystem then
      match deliver sub.channelId with
      | some mid => sendLoop deliver subsystem rest (dinsert acc (CKey.int sub.channelId) mid)
      | none => sendLoop deliver subsystem rest acc
    else sendLoop deliver subsystem rest acc

/-- send_to_subscribed_channels: fan one message out over the subscriptions and
return the {channel_id: message_id} map of the successful deliveries. -/
def send_to_subscribed_channels (subs : List Subscription)
    (deliver : Nat → Option Nat) (subsystem : String) : HandleMap :=
  sendLoop deliver subsystem subs []

/-- An outbound action of the router: a SEND of a new notification for the
given lore message id (with the per-channel handles actually delivered), or an
EDIT of the existing notifications identified by the given handles. -/
inductive Action : Type
  | send (msgId : String) (delivered : HandleMap)
  | edit (msgId : String) (targets : HandleMap)
deriving DecidableEq, Repr

/-- Combined state of the bot: the LoreMonitor dedup state and the
MessageTracker correlation state. -/
structure BotState where
  lore : LoreState
  tracker : TrackerState
deriving DecidableEq, Repr

/-- The `for pull in git_pulls` loop of check_subsystem_activity: send to the
subscribed channels, and if at least one channel received the message, store
the correlation record and add the pending-PR entry. -/
def routePulls (subs : List Subscription) (deliver : String → Nat → Option Nat) :
    TrackerState → List Msg → TrackerState × List Action
  | tr, [] => (tr, [])
  | tr, p :: ps =>
    let cm := send_to_subscribed_channels subs (deliver p.id) p.subsystem
    let tr1 := if cm.isEmpty then tr else add_pending_pr true (store true tr p.id cm) p
    let q := routePulls subs deliver tr1 ps
    (q.1, Action.send p.id cm :: q.2)

/-- The action taken for one merge confirmation: edit the messages found via
the refs, or post a fresh notification when no ref resolves. -/
def routeAct (subs : List Subscription) (deliver : String → Nat → Option Nat)
    (mm : List (String × HandleMap)) (pr : Msg) : Action :=
  let cm := get_channel_messages_by_refs mm pr.refs
  if cm.isEmpty then
    Action.send pr.id (send_to_subscribed_channels subs (deliver pr.id) pr.subsystem)
  else Action.edit pr.id cm

/-- The `for pr in merged_prs` loop of check_subsystem_activity: resolve the
refs against the correlation store, edit or send accordingly, then
mark_pr_merged every ref. -/
def routeMerges (subs : List Subscription) (deliver : String → Nat → Option Nat) :
    TrackerState → List Msg → TrackerState × List Action
  | tr, [] => (tr, [])
  | tr, pr :: prs =>
    let act := routeAct subs deliver tr.message_map pr
    let tr1 := pr.refs.foldl mark_pr_merged tr
    let q := routeMerges subs deliver tr1 prs
    (q.1, act :: q.2)

/-- check_subsystem_activity on one poll cycle: both checkers see the same
fetched batch; original GIT PULL submissions are processed first, then the
pr-tracker-bot merge confirmations; the final cleanup call raises
AttributeError, which the surrounding `except Exception` handler swallows. -/
def check_subsystem_activity (subs : List Subscription)
    (deliver : String → Nat → Option Nat) (now : Nat)
    (st : BotState) (batch : List Msg) : BotState × List Action :=
  let p1 := check_git_pull_requests true now st.lore batch
  let r1 := routePulls subs deliver st.tracker p1.2
  let p2 := check_pr_bot_messages true now p1.1 batch
  let r2 := routeMerges subs deliver r1.1 p2.2
  let tr3 := match cleanup_old_pending_prs_call r2.1 with
    | Except.ok tr => tr
    | Except.error _ => r2.1
  ({ lore := p2.1, tracker := tr3 }, r1.2 ++ r2.2)

/-- KernelMonitor.check_for_new_release: compare the fetched latest tag with
last_known_tag; always update the recorded tag on a change, but notify (with
the new and the previous tag) only when a previous tag was recorded (the
Python truthiness test `if old_tag`, for which None and the empty string are
falsy). -/
def check_for_new_release (last_known_tag : Option String)
    (current_tag : Option String) : Option String × Option (String × String) :=
  match current_tag with
  | none => (last_known_tag, none)
  | some tag =>
    if last_known_tag ≠ some tag then
      (some tag,
        match last_known_tag with
        | none => none
        | some old => if old = "" then none else some (tag, old))
    else (last_known_tag, none)

/-- The per-project body of GitHubMonitor.check_for_new_releases: compare the
fetched latest release tag with last_known_releases[project_name]; record the
tag on a change, but report a new release only when a previous tag was
recorded (Python truthiness: a missing key and the empty string are falsy). -/
def github_check_project (last_known_releases : List (String × String))
    (project_name : String) (fetched : Option String) :
    List (String × String) × Option (String × String) :=
  match fetched with
  | none => (last_known_releases, none)
  | some tag =>
    let last := dget last_known_releases project_name
    if last ≠ some tag then
      (dinsert last_known_releases project_name tag,
        match last with
        | none => none
        | some old => if old = "" then none else some (tag, old))
    else (last_known_releases, none)

/-! ### Concrete fixtures used to exercise the model on closed inputs -/

/-- A fresh GIT PULL submission for subsystem x86, lore id X. -/
def msgA : Msg :=
  { id := "X", subject := "[GIT PULL] x86 fixes for 6.12"
    fromAddr := "dev@example.com", date := "2025-01-01T10:00:00+00:00"
    url := "https://lore.kernel.org/all/X/", subsystem := "x86", refs := [] }

/-- The pr-tracker-bot merge confirmation for msgA (refs = [X]). -/
def msgB : Msg :=
  { id := "B1", subject := "Re: [GIT PULL] x86 fixes for 6.12"
    fromAddr := "pr-tracker-bot@kernel.org", date := "2025-01-02T10:00:00+00:00"
    url := "https://lore.kernel.org/all/B1/", subsystem := "x86", refs := ["X"] }

/-- A merge confirmation whose refs name an older thread message Y before X. -/
def msgBY : Msg := { msgB with refs := ["Y", "X"] }

/-- One sink subscribed to x86. -/
def subsX : List Subscription := [⟨1, ["x86"]⟩]

/-- A delivery oracle for which every send succeeds with message id 101. -/
def delOK : String → Nat → Option Nat := fun _ _ => some 101

/-- A pending PR entry dated well over 21 days before any later poll cycle. -/
def pdOld : PendingPR :=
  { subject := "[GIT PULL] old series", subsystem := "x86"
    fromAddr := "dev@example.com", date := "2025-08-01T00:00:00+00:00"
    url := "https://lore.kernel.org/all/OLD/" }

/-- The empty bot state. -/
def st0 : BotState := ⟨⟨[], []⟩, ⟨[], [], [], []⟩⟩

/-- A state holding a stale correlation record for the thread message Y. -/
def stY : BotState := ⟨⟨[], []⟩, ⟨[("Y", [(CKey.int 9, 9)])], [], [("Y", [(CKey.int 9, 9)])], []⟩⟩

/-- A state holding one pending PR far older than the 21-day horizon. -/
def stOld : BotState := ⟨⟨[], []⟩, ⟨[], [("OLD", pdOld)], [], [("OLD", pdOld)]⟩⟩

/-! ### Dictionary lemmas -/

theorem dget_dinsert_self {κ α : Type} [DecidableEq κ] (d : List (κ × α)) (k : κ) (v : α) :
    dget (dinsert d k v) k = some v := by
  induction d with
  | nil => simp [dinsert, dget]
  | cons h t ih =>
    obtain ⟨k1, v1⟩ := h
    by_cases hk : k1 = k
    · subst hk; simp [dinsert, dget]
    · simp [dinsert, hk, dget, ih]

theorem dget_dinsert_ne {κ α : Type} [DecidableEq κ] (d : List (κ × α)) (k x : κ) (v : α)
    (h : x ≠ k) : dget (dinsert d k v) x = dget d x := by
  have hk1 : ¬ k = x := fun e => h e.symm
  induction d with
  | nil => simp [dinsert, dget, hk1]
  | cons hd t ih =>
    obtain ⟨k1, v1⟩ := hd
    by_cases hk : k1 = k
    · subst hk; simp [dinsert, dget, hk1]
    · simp [dinsert, hk, dget, ih]

theorem dmem_dinsert {κ α : Type} [DecidableEq κ] (d : List (κ × α)) (k x : κ) (v : α) :
    dmem (dinsert d k v) x = (dmem d x || decide (x = k)) := by
  by_cases hx : x = k
  · subst hx; simp [dmem, dget_dinsert_self]
  · simp [dmem, dget_dinsert_ne d k x v hx, hx]

theorem dget_filter_some {κ α : Type} [DecidableEq κ] (d : List (κ × α)) (x : κ) (v : α)
    (p : κ × α → Bool) (h : dget d x = some v) (hp : p (x, v) = true) :
    dget (d.filter p) x = some v := by
  induction d with
  | nil => simp [dget] at h
  | cons hd t ih =>
    obtain ⟨k1, v1⟩ := hd
    by_cases hk : k1 = x
    · subst hk
      simp [dget] at h
      subst h
      simp [List.filter, hp, dget]
    · simp [dget, hk] at h
      by_cases hph : p (k1, v1) = true
      · simp [List.filter, hph, dget, hk, ih h]
      · simp at hph
        simp [List.filter, hph, ih h]

theorem dget_filter_none {κ α : Type} [DecidableEq κ] (d : List (κ × α)) (x : κ)
    (p : κ × α → Bool) (h : dget d x = none) :
    dget (d.filter p) x = none := by
  induction d with
  | nil => simp [dget]
  | cons hd t ih =>
    obtain ⟨k1, v1⟩ := hd
    by_cases hk : k1 = x
    · subst hk; simp [dget] at h
    · simp [dget, hk] at h
      by_cases hph : p (k1, v1) = true
      · simp [List.filter, hph, dget, hk, ih h]
      · simp at hph
        simp [List.filter, hph, ih h]

/-! ### Dedup-scan lemmas -/

theorem saveSeen_get_some (w : Bool) (now : Nat) (st : LoreState) (x : String)
    (h : dget st.seen x = some now) (hnow : 0 < now) :
    dget (saveSeen w now st).seen x = some now := by
  unfold saveSeen
  exact dget_filter_some st.seen x now _ h (by simp; omega)

theorem saveSeen_get_none (w : Bool) (now : Nat) (st : LoreState) (x : String)
    (h : dget st.seen x = none) :
    dget (saveSeen w now st).seen x = none := by
  unfold saveSeen
  exact dget_filter_none st.seen x _ h

theorem saveSeen_disk (now : Nat) (st : LoreState) :
    (saveSeen false now st).disk = st.disk := rfl

theorem scanStep_not (f : Msg → Bool) (w : Bool) (now : Nat) (st : LoreState) (m : Msg)
    (h : f m = false) : scanStep f w now st m = (st, []) := by
  simp [scanStep, h]

theorem scanStep_seen (f : Msg → Bool) (w : Bool) (now : Nat) (st : LoreState) (m : Msg)
    (hf : f m = true) (h : dmem st.seen m.id = true) :
    scanStep f w now st m = (st, []) := by
  simp [scanStep, hf, h]

theorem scanStep_fresh (f : Msg → Bool) (w : Bool) (now : Nat) (st : LoreState) (m : Msg)
    (hf : f m = true) (h : dmem st.seen m.id = false) :
    scanStep f w now st m =
      (saveSeen w now { st with seen := dinsert st.seen m.id now }, [m]) := by
  simp [scanStep, hf, h]

theorem scanStep_get_some (f : Msg → Bool) (w : Bool) (now : Nat) (st : LoreState)
    (m : Msg) (x : String) (h : dget st.seen x = some now) (hnow : 0 < now) :
    dget (scanStep f w now st m).1.seen x = some now := by
  by_cases hf : f m = true
  · by_cases hs : dmem st.seen m.id = true
    · rw [scanStep_seen f w now st m hf hs]; exact h
    · simp at hs
      rw [scanStep_fresh f w now st m hf hs]
      have hne : m.id ≠ x := by
        intro e; subst e
        simp [dmem, h] at hs
      apply saveSeen_get_some
      · simpa [dget_dinsert_ne st.seen m.id x now (fun e => hne e.symm)] using h
      · exact hnow
  · simp at hf
    rw [scanStep_not f w now st m hf]; exact h

theorem scanStep_get_none (f : Msg → Bool) (w : Bool) (now : Nat) (st : LoreState)
    (m : Msg) (x : String) (h : dget st.seen x = none)
    (hne : f m = true → m.id ≠ x) :
    dget (scanStep f w now st m).1.seen x = none := by
  by_cases hf : f m = true
  · by_cases hs : dmem st.seen m.id = true
    · rw [scanStep_seen f w now st m hf hs]; exact h
    · simp at hs
      rw [scanStep_fresh f w now st m hf hs]
      apply saveSeen_get_none
      simpa [dget_dinsert_ne st.seen m.id x now (fun e => (hne hf) e.symm)] using h
  · simp at hf
    rw [scanStep_not f w now st m hf]; exact h

theorem scanStep_out (f : Msg → Bool) (w : Bool) (now : Nat) (st : LoreState) (m : Msg) :
    (scanStep f w now st m).2 =
      if f m && !dmem st.seen m.id then [m] else [] := by
  by_cases hf : f m = true
  · by_cases hs : dmem st.seen m.id = true
    · rw [scanStep_seen f w now st m hf hs]; simp [hf, hs]
    · simp at hs
      rw [scanStep_fresh f w now st m hf hs]; simp [hf, hs]
  · simp at hf
    rw [scanStep_not f w now st m hf]; simp [hf]

theorem scanList_nil (f : Msg → Bool) (w : Bool) (now : Nat) (st : LoreState) :
    scanList f w now st [] = (st, []) := rfl

theorem scanList_cons (f : Msg → Bool) (w : Bool) (now : Nat) (st : LoreState)
    (m : Msg) (ms : List Msg) :
    scanList f w now st (m :: ms) =
      ((scanList f w now (scanStep f w now st m).1 ms).1,
        (scanStep f w now st m).2 ++ (scanList f w now (scanStep f w now st m).1 ms).2) := rfl

theorem scanList_append (f : Msg → Bool) (w : Bool) (now : Nat) (st : LoreState)
    (xs ys : List Msg) :
    scanList f w now st (xs ++ ys) =
      ((scanList f w now (scanList f w now st xs).1 ys).1,
        (scanList f w now st xs).2 ++ (scanList f w now (scanList f w now st xs).1 ys).2) := by
  induction xs generalizing st with
  | nil => simp [scanList_nil]
  | cons m ms ih =>
    simp only [List.cons_append, scanList_cons, ih, List.append_assoc]

theorem scanList_get_some (f : Msg → Bool) (w : Bool) (now : Nat) (st : LoreState)
    (ms : List Msg) (x : String) (h : dget st.seen x = some now) (hnow : 0 < now) :
    dget (scanList f w now st ms).1.seen x = some now := by
  induction ms generalizing st with
  | nil => exact h
  | cons m ms ih =>
    rw [scanList_cons]
    exact ih _ (scanStep_get_some f w now st m x h hnow)

theorem scanList_get_none (f : Msg → Bool) (w : Bool) (now : Nat) (st : LoreState)
    (ms : List Msg) (x : String) (h : dget st.seen x = none)
    (hne : ∀ m ∈ ms, f m = true → m.id ≠ x) :
    dget (scanList f w now st ms).1.seen x = none := by
  induction ms generalizing st with
  | nil => exact h
  | cons m ms ih =>
    rw [scanList_cons]
    exact ih _ (scanStep_get_none f w now st m x h (hne m (by simp)))
      (fun m1 hm1 => hne m1 (by simp [hm1]))

theorem scanList_out_mem (f : Msg → Bool) (w : Bool) (now : Nat) (st : LoreState)
    (ms : List Msg) (p : Msg) (h : p ∈ (scanList f w now st ms).2) :
    p ∈ ms ∧ f p = true := by
  induction ms generalizing st with
  | nil => simp [scanList_nil] at h
  | cons m ms ih =>
    rw [scanList_cons] at h
    simp only [List.mem_append] at h
    rcases h with h | h
    · rw [scanStep_out] at h
      by_cases hc : (f m && !dmem st.seen m.id) = true
      · rw [if_pos hc] at h
        simp at h
        subst h
        simp at hc
        exact ⟨by simp, hc.1⟩
      · rw [if_neg hc] at h
        simp at h
    · have := ih _ h
      exact ⟨by simp [this.1], this.2⟩

/-! ### Router lemmas -/

theorem sendLoop_acc (deliver : Nat → Option Nat) (s : String)
    (subs : List Subscription) (acc : HandleMap) (x : CKey)
    (h : dmem acc x = true) : dmem (sendLoop deliver s subs acc) x = true := by
  induction subs generalizing acc with
  | nil => exact h
  | cons sub rest ih =>
    by_cases hm : (sub.subsystems.contains "*" || sub.subsystems.contains s) = true
    · simp only [sendLoop, hm, if_true]
      cases hd : deliver sub.channelId with
      | none => exact ih _ h
      | some mid =>
        exact ih _ (by rw [dmem_dinsert]; simp [h])
    · simp only [sendLoop, hm, if_false]
      exact ih _ h

theorem sendLoop_mem_of (deliver : Nat → Option Nat) (s : String)
    (subs : List Subscription) (acc : HandleMap) (sub : Subscription) (mid : Nat)
    (hsub : sub ∈ subs)
    (hmatch : (sub.subsystems.contains "*" || sub.subsystems.contains s) = true)
    (hdel : deliver sub.channelId = some mid) :
    dmem (sendLoop deliver s subs acc) (CKey.int sub.channelId) = true := by
  induction subs generalizing acc with
  | nil => simp at hsub
  | cons hd rest ih =>
    rcases List.mem_cons.mp hsub with he | hm
    · subst he
      simp only [sendLoop, hmatch, if_true, hdel]
      apply sendLoop_acc
      rw [dmem_dinsert]; simp
    · by_cases hc : (hd.subsystems.contains "*" || hd.subsystems.contains s) = true
      · simp only [sendLoop, hc, if_true]
        cases hdd : deliver hd.channelId with
        | none => exact ih _ hm
        | some m2 => exact ih _ hm
      · simp only [sendLoop, hc, if_false]
        exact ih _ hm

theorem sendLoop_allok (mid : Nat → Nat) (s : String) (subs : List Subscription)
    (acc : HandleMap) (x : CKey) :
    dmem (sendLoop (fun c => some (mid c)) s subs acc) x =
      (dmem acc x ||
        subs.any (fun sub =>
          decide (x = CKey.int sub.channelId)
            && (sub.subsystems.contains "*" || sub.subsystems.contains s))) := by
  induction subs generalizing acc with
  | nil => simp [sendLoop]
  | cons sub rest ih =>
    cases hm : (sub.subsystems.contains "*" || sub.subsystems.contains s) with
    | true =>
      simp only [sendLoop, hm, if_true]
      rw [ih, dmem_dinsert, List.any_cons, hm, Bool.and_true, Bool.or_assoc]
    | false =>
      simp only [sendLoop, hm, Bool.false_eq_true, if_false]
      rw [ih, List.any_cons, hm, Bool.and_false, Bool.false_or]

theorem sendLoop_allfail (s : String) (subs : List Subscription) (acc : HandleMap) :
    sendLoop (fun _ => none) s subs acc = acc := by
  induction subs with
  | nil => rfl
  | cons sub rest ih => simp [sendLoop, ih]

theorem routePulls_nil (subs : List Subscription) (deliver : String → Nat → Option Nat)
    (tr : TrackerState) : routePulls subs deliver tr [] = (tr, []) := rfl

theorem routePulls_acts (subs : List Subscription) (deliver : String → Nat → Option Nat)
    (tr : TrackerState) (ps : List Msg) :
    (routePulls subs deliver tr ps).2 =
      ps.map (fun p =>
        Action.send p.id (send_to_subscribed_channels subs (deliver p.id) p.subsystem)) := by
  induction ps generalizing tr with
  | nil => rfl
  | cons p ps ih => simp [routePulls, ih]

theorem routePulls_append (subs : List Subscription) (deliver : String → Nat → Option Nat)
    (tr : TrackerState) (xs ys : List Msg) :
    routePulls subs deliver tr (xs ++ ys) =
      ((routePulls subs deliver (routePulls subs deliver tr xs).1 ys).1,
        (routePulls subs deliver tr xs).2 ++
          (routePulls subs deliver (routePulls subs deliver tr xs).1 ys).2) := by
  induction xs generalizing tr with
  | nil => simp [routePulls_nil]
  | cons p ps ih =>
    simp only [List.cons_append, routePulls, List.append_eq]
    rw [ih]

theorem routePulls_mm_ne (subs : List Subscription) (deliver : String → Nat → Option Nat)
    (tr : TrackerState) (ps : List Msg) (x : String)
    (h : ∀ p ∈ ps, p.id ≠ x) :
    dget (routePulls subs deliver tr ps).1.message_map x = dget tr.message_map x := by
  induction ps generalizing tr with
  | nil => rfl
  | cons p ps ih =>
    simp only [routePulls]
    rw [ih _ (fun q hq => h q (by simp [hq]))]
    by_cases hc : (send_to_subscribed_channels subs (deliver p.id) p.subsystem).isEmpty = true
    · simp [hc]
    · simp only [Bool.not_eq_true] at hc
      simp only [hc, Bool.false_eq_true, if_false, add_pending_pr, store]
      exact dget_dinsert_ne _ _ _ _ (fun e => h p (by simp) e.symm)

theorem routePulls_pending_ne (subs : List Subscription) (deliver : String → Nat → Option Nat)
    (tr : TrackerState) (ps : List Msg) (x : String)
    (h : ∀ p ∈ ps, p.id ≠ x) :
    dget (routePulls subs deliver tr ps).1.pending_prs x = dget tr.pending_prs x := by
  induction ps generalizing tr with
  | nil => rfl
  | cons p ps ih =>
    simp only [routePulls]
    rw [ih _ (fun q hq => h q (by simp [hq]))]
    by_cases hc : (send_to_subscribed_channels subs (deliver p.id) p.subsystem).isEmpty = true
    · simp [hc]
    · simp only [Bool.not_eq_true] at hc
      simp only [hc, Bool.false_eq_true, if_false, add_pending_pr, store]
      exact dget_dinsert_ne _ _ _ _ (fun e => h p (by simp) e.symm)

theorem routePulls_store (subs : List Subscription) (deliver : String → Nat → Option Nat)
    (tr : TrackerState) (u v : List Msg) (a : Msg)
    (hv : ∀ p ∈ v, p.id ≠ a.id)
    (hcm : (send_to_subscribed_channels subs (deliver a.id) a.subsystem).isEmpty = false) :
    dget (routePulls subs deliver tr (u ++ a :: v)).1.message_map a.id =
      some (send_to_subscribed_channels subs (deliver a.id) a.subsystem) := by
  rw [routePulls_append]
  simp only [routePulls]
  rw [routePulls_mm_ne _ _ _ _ _ hv]
  simp only [hcm, Bool.false_eq_true, if_false, add_pending_pr, store]
  exact dget_dinsert_self _ _ _

theorem mark_pr_merged_mm (tr : TrackerState) (id : String) :
    (mark_pr_merged tr id).message_map = tr.message_map := by
  unfold mark_pr_merged
  by_cases h : dmem tr.pending_prs id = true
  · simp [h]
  · simp at h; simp [h]

theorem markFold_mm (tr : TrackerState) (refs : List String) :
    (refs.foldl mark_pr_merged tr).message_map = tr.message_map := by
  induction refs generalizing tr with
  | nil => rfl
  | cons r rs ih =>
    simp only [List.foldl_cons]
    rw [ih, mark_pr_merged_mm]

theorem routeMerges_nil (subs : List Subscription) (deliver : String → Nat → Option Nat)
    (tr : TrackerState) : routeMerges subs deliver tr [] = (tr, []) := rfl

theorem routeMerges_mm (subs : List Subscription) (deliver : String → Nat → Option Nat)
    (tr : TrackerState) (ms : List Msg) :
    (routeMerges subs deliver tr ms).1.message_map = tr.message_map := by
  induction ms generalizing tr with
  | nil => rfl
  | cons pr prs ih =>
    simp only [routeMerges]
    rw [ih, markFold_mm]

theorem routeMerges_acts (subs : List Subscription) (deliver : String → Nat → Option Nat)
    (tr : TrackerState) (ms : List Msg) :
    (routeMerges subs deliver tr ms).2 =
      ms.map (routeAct subs deliver tr.message_map) := by
  induction ms generalizing tr with
  | nil => rfl
  | cons pr prs ih =>
    simp only [routeMerges, List.map_cons]
    rw [ih, markFold_mm]

/-! ### Action bookkeeping helpers -/

/-- Is this action a SEND for the given lore message id. -/
def isSendFor (x : String) (a : Action) : Bool :=
  match a with
  | Action.send i _ => decide (i = x)
  | Action.edit _ _ => false

/-- Is this action an EDIT for the given lore message id. -/
def isEditFor (x : String) (a : Action) : Bool :=
  match a with
  | Action.send _ _ => false
  | Action.edit i _ => decide (i = x)

/-- All SEND actions of a cycle for one lore message id. -/
def sendsFor (acts : List Action) (x : String) : List Action :=
  acts.filter (isSendFor x)

/-- All EDIT actions of a cycle for one lore message id. -/
def editsFor (acts : List Action) (x : String) : List Action :=
  acts.filter (isEditFor x)

/-- The tail of an action list starting at the first occurrence of the given
action (used to state that one action happens after another). -/
def afterFirst (acts : List Action) (a : Action) : List Action :=
  acts.dropWhile (fun x => !(decide (x = a)))

theorem dget_none_of_dmem_false {κ α : Type} [DecidableEq κ]
    (d : List (κ × α)) (k : κ) (h : dmem d k = false) : dget d k = none := by
  unfold dmem at h
  cases hg : dget d k with
  | none => rfl
  | some v => rw [hg] at h; simp at h

theorem dmem_false_of_dget_none {κ α : Type} [DecidableEq κ]
    (d : List (κ × α)) (k : κ) (h : dget d k = none) : dmem d k = false := by
  unfold dmem; rw [h]; rfl

theorem sendsFor_append (l1 l2 : List Action) (x : String) :
    sendsFor (l1 ++ l2) x = sendsFor l1 x ++ sendsFor l2 x :=
  List.filter_append l1 l2

theorem editsFor_append (l1 l2 : List Action) (x : String) :
    editsFor (l1 ++ l2) x = editsFor l1 x ++ editsFor l2 x :=
  List.filter_append l1 l2

theorem sendsFor_map_sends (g : Msg → HandleMap) (ps : List Msg) (x : String)
    (h : ∀ p ∈ ps, p.id ≠ x) :
    sendsFor (ps.map (fun p => Action.send p.id (g p))) x = [] := by
  induction ps with
  | nil => rfl
  | cons p ps ih =>
    have hp : isSendFor x (Action.send p.id (g p)) = false := by
      simp [isSendFor, h p (by simp)]
    simp only [List.map_cons, sendsFor, List.filter_cons, hp, Bool.false_eq_true, if_false]
    exact ih (fun q hq => h q (by simp [hq]))

theorem editsFor_map_sends (g : Msg → HandleMap) (ps : List Msg) (x : String) :
    editsFor (ps.map (fun p => Action.send p.id (g p))) x = [] := by
  induction ps with
  | nil => rfl
  | cons p ps ih =>
    simp only [List.map_cons, editsFor, List.filter_cons, isEditFor, Bool.false_eq_true,
      if_false]
    exact ih

theorem isSendFor_routeAct_ne (subs : List Subscription)
    (deliver : String → Nat → Option Nat) (mm : List (String × HandleMap))
    (pr : Msg) (x : String) (h : pr.id ≠ x) :
    isSendFor x (routeAct subs deliver mm pr) = false := by
  unfold routeAct
  by_cases hc : (get_channel_messages_by_refs mm pr.refs).isEmpty = true
  · simp [hc, isSendFor, h]
  · simp only [Bool.not_eq_true] at hc
    simp [hc, isSendFor]

theorem isEditFor_routeAct_ne (subs : List Subscription)
    (deliver : String → Nat → Option Nat) (mm : List (String × HandleMap))
    (pr : Msg) (x : String) (h : pr.id ≠ x) :
    isEditFor x (routeAct subs deliver mm pr) = false := by
  unfold routeAct
  by_cases hc : (get_channel_messages_by_refs mm pr.refs).isEmpty = true
  · simp [hc, isEditFor]
  · simp only [Bool.not_eq_true] at hc
    simp [hc, isEditFor, h]

theorem sendsFor_map_acts (subs : List Subscription)
    (deliver : String → Nat → Option Nat) (mm : List (String × HandleMap))
    (ms : List Msg) (x : String) (h : ∀ pr ∈ ms, pr.id ≠ x) :
    sendsFor (ms.map (routeAct subs deliver mm)) x = [] := by
  induction ms with
  | nil => rfl
  | cons pr prs ih =>
    simp only [List.map_cons, sendsFor, List.filter_cons,
      isSendFor_routeAct_ne subs deliver mm pr x (h pr (by simp)),
      Bool.false_eq_true, if_false]
    exact ih (fun q hq => h q (by simp [hq]))

theorem editsFor_map_acts_ne (subs : List Subscription)
    (deliver : String → Nat → Option Nat) (mm : List (String × HandleMap))
    (ms : List Msg) (x : String) (h : ∀ pr ∈ ms, pr.id ≠ x) :
    editsFor (ms.map (routeAct subs deliver mm)) x = [] := by
  induction ms with
  | nil => rfl
  | cons pr prs ih =>
    simp only [List.map_cons, editsFor, List.filter_cons,
      isEditFor_routeAct_ne subs deliver mm pr x (h pr (by simp)),
      Bool.false_eq_true, if_false]
    exact ih (fun q hq => h q (by simp [hq]))

theorem routeAct_edit (subs : List Subscription)
    (deliver : String → Nat → Option Nat) (mm : List (String × HandleMap))
    (pr : Msg) (hc : (get_channel_messages_by_refs mm pr.refs).isEmpty = false) :
    routeAct subs deliver mm pr =
      Action.edit pr.id (get_channel_messages_by_refs mm pr.refs) := by
  unfold routeAct
  simp [hc]

theorem resolve_single (mm : List (String × HandleMap)) (x : String) (hm : HandleMap)
    (h1 : dget mm x = some hm) (h2 : hm.isEmpty = false) :
    get_channel_messages_by_refs mm [x] = hm := by
  simp [get_channel_messages_by_refs, h1, h2]

theorem afterFirst_split (u v : List Action) (a : Action)
    (h : ∀ x ∈ u, x ≠ a) : afterFirst (u ++ a :: v) a = a :: v := by
  induction u with
  | nil => simp [afterFirst, List.dropWhile]
  | cons x xs ih =>
    have hx : x ≠ a := h x (by simp)
    simp only [List.cons_append, afterFirst, List.dropWhile, hx, decide_eq_false hx,
      Bool.not_false]
    exact ih (fun y hy => h y (by simp [hy]))

theorem bot_false_of_candidate (m : Msg) (h : isPullCandidate m = true) :
    isBotSender m = false := by
  unfold isPullCandidate at h
  cases hb : isBotSender m with
  | false => rfl
  | true => rw [hb] at h; simp at h

theorem pull_false_of_bot (m : Msg) (h : isBotSender m = true) :
    isPullCandidate m = false := by
  unfold isPullCandidate
  rw [h]
  simp

theorem sendsFor_decomp (g : Msg → HandleMap) (u v : List Msg) (a : Msg) (x : String)
    (hu : ∀ p ∈ u, p.id ≠ x) (hv : ∀ p ∈ v, p.id ≠ x) (ha : a.id = x) :
    sendsFor ((u ++ a :: v).map (fun p => Action.send p.id (g p))) x
      = [Action.send a.id (g a)] := by
  rw [List.map_append, List.map_cons, sendsFor_append, sendsFor_map_sends g u x hu]
  have he : isSendFor x (Action.send a.id (g a)) = true := by simp [isSendFor, ha]
  simp only [sendsFor, List.filter_cons, he, if_true]
  rw [show List.filter (isSendFor x) (v.map (fun p => Action.send p.id (g p))) = []
    from sendsFor_map_sends g v x hv]
  simp

theorem editsFor_decomp_acts (subs : List Subscription)
    (deliver : String → Nat → Option Nat) (mm : List (String × HandleMap))
    (u v : List Msg) (b : Msg) (x : String) (e : Action)
    (hu : ∀ pr ∈ u, pr.id ≠ x) (hv : ∀ pr ∈ v, pr.id ≠ x)
    (hb : routeAct subs deliver mm b = e) (he : isEditFor x e = true) :
    editsFor ((u ++ b :: v).map (routeAct subs deliver mm)) x = [e] := by
  rw [List.map_append, List.map_cons, editsFor_append,
    editsFor_map_acts_ne subs deliver mm u x hu, hb]
  simp only [editsFor, List.filter_cons, he, if_true]
  rw [show List.filter (isEditFor x) (v.map (routeAct subs deliver mm)) = []
    from editsFor_map_acts_ne subs deliver mm v x hv]
  simp

theorem sendsFor_map_acts_edit (subs : List Subscription)
    (deliver : String → Nat → Option Nat) (mm : List (String × HandleMap))
    (u v : List Msg) (b : Msg) (x : String)
    (hu : ∀ pr ∈ u, pr.id ≠ x) (hv : ∀ pr ∈ v, pr.id ≠ x)
    (hb : isSendFor x (routeAct subs deliver mm b) = false) :
    sendsFor ((u ++ b :: v).map (routeAct subs deliver mm)) x = [] := by
  rw [List.map_append, List.map_cons, sendsFor_append,
    sendsFor_map_acts subs deliver mm u x hu]
  simp only [sendsFor, List.filter_cons, hb, Bool.false_eq_true, if_false]
  rw [show List.filter (isSendFor x) (v.map (routeAct subs deliver mm)) = []
    from sendsFor_map_acts subs deliver mm v x hv]
  simp

/-- Claim C1 (amended): in a poll-cycle batch containing a fresh GIT PULL
submission A and, later, a fresh pr-tracker-bot merge confirmation B whose refs
list is [A.id], where no other batch element carries the id of A or of B and at
least one sink delivery for A succeeds, the router emits exactly one SEND for A,
exactly one EDIT for B targeting exactly the handles recorded for A, no SEND
for B, the correlation record of A holds those handles at the end of the
cycle, and the EDIT occurs after the SEND. -/
theorem c1_router_ordering
    (subs : List Subscription) (deliver : String → Nat → Option Nat) (now : Nat)
    (st : BotState) (P Q R : List Msg) (A B : Msg)
    (hAc : isPullCandidate A = true)
    (hBc : isBotSender B = true)
    (hAfresh : dmem st.lore.seen A.id = false)
    (hBfresh : dmem st.lore.seen B.id = false)
    (hrefs : B.refs = [A.id])
    (hnow : 0 < now)
    (hPA : ∀ m ∈ P, m.id ≠ A.id) (hQA : ∀ m ∈ Q, m.id ≠ A.id) (hRA : ∀ m ∈ R, m.id ≠ A.id)
    (hPB : ∀ m ∈ P, m.id ≠ B.id) (hQB : ∀ m ∈ Q, m.id ≠ B.id) (hRB : ∀ m ∈ R, m.id ≠ B.id)
    (hAB : A.id ≠ B.id)
    (hcm : (send_to_subscribed_channels subs (deliver A.id) A.subsystem).isEmpty = false) :
    sendsFor (check_subsystem_activity subs deliver now st (P ++ A :: Q ++ B :: R)).2 A.id
        = [Action.send A.id (send_to_subscribed_channels subs (deliver A.id) A.subsystem)]
      ∧ editsFor (check_subsystem_activity subs deliver now st (P ++ A :: Q ++ B :: R)).2 B.id
        = [Action.edit B.id (send_to_subscribed_channels subs (deliver A.id) A.subsystem)]
      ∧ sendsFor (check_subsystem_activity subs deliver now st (P ++ A :: Q ++ B :: R)).2 B.id
        = []
      ∧ dget (check_subsystem_activity subs deliver now st
            (P ++ A :: Q ++ B :: R)).1.tracker.message_map A.id
        = some (send_to_subscribed_channels subs (deliver A.id) A.subsystem)
      ∧ Action.edit B.id (send_to_subscribed_channels subs (deliver A.id) A.subsystem)
          ∈ afterFirst (check_subsystem_activity subs deliver now st (P ++ A :: Q ++ B :: R)).2
              (Action.send A.id (send_to_subscribed_channels subs (deliver A.id) A.subsystem)) := by
  have hbotA : isBotSender A = false := bot_false_of_candidate A hAc
  have hpullB : isPullCandidate B = false := pull_false_of_bot B hBc
  have hAg : dget st.lore.seen A.id = none := dget_none_of_dmem_false _ _ hAfresh
  have hBg : dget st.lore.seen B.id = none := dget_none_of_dmem_false _ _ hBfresh
  -- Phase 1: the GIT PULL scan over the batch.
  set s1 := (scanList isPullCandidate true now st.lore P).1 with hs1
  set o1 := (scanList isPullCandidate true now st.lore P).2 with ho1
  have hA1 : dget s1.seen A.id = none := by
    rw [hs1]; exact scanList_get_none _ _ _ _ _ _ hAg (fun m hm _ => hPA m hm)
  have hB1 : dget s1.seen B.id = none := by
    rw [hs1]; exact scanList_get_none _ _ _ _ _ _ hBg (fun m hm _ => hPB m hm)
  have eA : scanStep isPullCandidate true now s1 A
      = (saveSeen true now { s1 with seen := dinsert s1.seen A.id now }, [A]) :=
    scanStep_fresh _ _ _ _ _ hAc (dmem_false_of_dget_none _ _ hA1)
  set s2 := saveSeen true now { s1 with seen := dinsert s1.seen A.id now } with hs2
  have hA2 : dget s2.seen A.id = some now := by
    rw [hs2]
    exact saveSeen_get_some _ _ _ _ (dget_dinsert_self _ _ _) hnow
  have hB2 : dget s2.seen B.id = none := by
    rw [hs2]
    apply saveSeen_get_none
    rw [show dget (dinsert s1.seen A.id now) B.id = dget s1.seen B.id
      from dget_dinsert_ne _ _ _ _ (fun e => hAB e.symm)]
    exact hB1
  set l1 := (scanList isPullCandidate true now s2 (Q ++ B :: R)).1 with hl1
  set oT := (scanList isPullCandidate true now s2 (Q ++ B :: R)).2 with hoT
  have hA3 : dget l1.seen A.id = some now := by
    rw [hl1]; exact scanList_get_some _ _ _ _ _ _ hA2 hnow
  have hTB : ∀ m ∈ Q ++ B :: R, isPullCandidate m = true → m.id ≠ B.id := by
    intro m hm hf
    rcases List.mem_append.mp hm with hq | hbr
    · exact hQB m hq
    · rcases List.mem_cons.mp hbr with he | hr
      · subst he; simp [hpullB] at hf
      · exact hRB m hr
  have hB3 : dget l1.seen B.id = none := by
    rw [hl1]; exact scanList_get_none _ _ _ _ _ _ hB2 hTB
  have hb1 : P ++ A :: Q ++ B :: R = P ++ A :: (Q ++ B :: R) := by simp
  have e3 : scanList isPullCandidate true now st.lore (P ++ A :: Q ++ B :: R)
      = (l1, o1 ++ A :: oT) := by
    rw [hb1, scanList_append, ← hs1, ← ho1, scanList_cons, eA]
    dsimp only
    rw [← hl1, ← hoT]
    rfl
  have hout1 : ∀ p ∈ o1, p.id ≠ A.id ∧ p.id ≠ B.id := by
    intro p hp
    rw [ho1] at hp
    have h2 := scanList_out_mem _ _ _ _ _ p hp
    exact ⟨hPA p h2.1, hPB p h2.1⟩
  have houtT : ∀ p ∈ oT, p.id ≠ A.id ∧ p.id ≠ B.id := by
    intro p hp
    rw [hoT] at hp
    obtain ⟨hmem, hfp⟩ := scanList_out_mem _ _ _ _ _ p hp
    rcases List.mem_append.mp hmem with hq | hbr
    · exact ⟨hQA p hq, hQB p hq⟩
    · rcases List.mem_cons.mp hbr with he | hr
      · subst he; simp [hpullB] at hfp
      · exact ⟨hRA p hr, hRB p hr⟩
  -- Phase 1: routing the pulls.
  set t1 := (routePulls subs deliver st.tracker (o1 ++ A :: oT)).1 with ht1
  have ht1A : dget t1.message_map A.id
      = some (send_to_subscribed_channels subs (deliver A.id) A.subsystem) := by
    rw [ht1]
    exact routePulls_store subs deliver st.tracker o1 oT A
      (fun p hp => (houtT p hp).1) hcm
  -- Phase 2: the pr-tracker-bot scan over the same batch.
  have hMB : ∀ m ∈ P ++ A :: Q, isBotSender m = true → m.id ≠ B.id := by
    intro m hm _
    rcases List.mem_append.mp hm with hp | haq
    · exact hPB m hp
    · rcases List.mem_cons.mp haq with he | hq
      · subst he; exact hAB
      · exact hQB m hq
  set s3 := (scanList isBotSender true now l1 (P ++ A :: Q)).1 with hs3
  set oM1 := (scanList isBotSender true now l1 (P ++ A :: Q)).2 with hoM1
  have hB4 : dget s3.seen B.id = none := by
    rw [hs3]; exact scanList_get_none _ _ _ _ _ _ hB3 hMB
  have eB : scanStep isBotSender true now s3 B
      = (saveSeen true now { s3 with seen := dinsert s3.seen B.id now }, [B]) :=
    scanStep_fresh _ _ _ _ _ hBc (dmem_false_of_dget_none _ _ hB4)
  set s4 := saveSeen true now { s3 with seen := dinsert s3.seen B.id now } with hs4
  set l2 := (scanList isBotSender true now s4 R).1 with hl2
  set oM2 := (scanList isBotSender true now s4 R).2 with hoM2
  have e4 : scanList isBotSender true now l1 (P ++ A :: Q ++ B :: R)
      = (l2, oM1 ++ B :: oM2) := by
    rw [scanList_append, ← hs3, ← hoM1, scanList_cons, eB]
    dsimp only
    rw [← hl2, ← hoM2]
    rfl
  have houtM1 : ∀ p ∈ oM1, p.id ≠ A.id ∧ p.id ≠ B.id := by
    intro p hp
    rw [hoM1] at hp
    obtain ⟨hmem, hfp⟩ := scanList_out_mem _ _ _ _ _ p hp
    rcases List.mem_append.mp hmem with hp2 | haq
    · exact ⟨hPA p hp2, hPB p hp2⟩
    · rcases List.mem_cons.mp haq with he | hq
      · subst he; simp [hbotA] at hfp
      · exact ⟨hQA p hq, hQB p hq⟩
  have houtM2 : ∀ p ∈ oM2, p.id ≠ A.id ∧ p.id ≠ B.id := by
    intro p hp
    rw [hoM2] at hp
    obtain ⟨hmem, _⟩ := scanList_out_mem _ _ _ _ _ p hp
    exact ⟨hRA p hmem, hRB p hmem⟩
  -- The action B takes: an EDIT of the handles recorded for A.
  have hres : get_channel_messages_by_refs t1.message_map B.refs
      = send_to_subscribed_channels subs (deliver A.id) A.subsystem := by
    rw [hrefs]
    exact resolve_single _ _ _ ht1A hcm
  have hc2 : (get_channel_messages_by_refs t1.message_map B.refs).isEmpty = false := by
    rw [hres]; exact hcm
  have hBact : routeAct subs deliver t1.message_map B
      = Action.edit B.id (send_to_subscribed_channels subs (deliver A.id) A.subsystem) := by
    rw [routeAct_edit subs deliver t1.message_map B hc2, hres]
  -- Master equations for the two components of the cycle.
  have hr2 : (check_subsystem_activity subs deliver now st (P ++ A :: Q ++ B :: R)).2
      = (routePulls subs deliver st.tracker
            (scanList isPullCandidate true now st.lore (P ++ A :: Q ++ B :: R)).2).2
        ++ (routeMerges subs deliver
              (routePulls subs deliver st.tracker
                (scanList isPullCandidate true now st.lore (P ++ A :: Q ++ B :: R)).2).1
              (scanList isBotSender true now
                (scanList isPullCandidate true now st.lore (P ++ A :: Q ++ B :: R)).1
                (P ++ A :: Q ++ B :: R)).2).2 := rfl
  have hr1 : (check_subsystem_activity subs deliver now st (P ++ A :: Q ++ B :: R)).1.tracker
      = (routeMerges subs deliver
            (routePulls subs deliver st.tracker
              (scanList isPullCandidate true now st.lore (P ++ A :: Q ++ B :: R)).2).1
            (scanList isBotSender true now
              (scanList isPullCandidate true now st.lore (P ++ A :: Q ++ B :: R)).1
              (P ++ A :: Q ++ B :: R)).2).1 := rfl
  rw [hr2, hr1, e3]
  dsimp only
  rw [← ht1, e4]
  dsimp only
  rw [routePulls_acts, routeMerges_acts, routeMerges_mm]
  refine ⟨?_, ?_, ?_, ht1A, ?_⟩
  · rw [sendsFor_append]
    rw [show sendsFor ((oM1 ++ B :: oM2).map (routeAct subs deliver t1.message_map)) A.id
        = [] from sendsFor_map_acts subs deliver t1.message_map _ _ (by
          intro p hp
          rcases List.mem_append.mp hp with h1 | h2
          · exact (houtM1 p h1).1
          · rcases List.mem_cons.mp h2 with he | h3
            · subst he; exact fun e => hAB e.symm
            · exact (houtM2 p h3).1)]
    rw [sendsFor_decomp _ o1 oT A A.id
      (fun p hp => (hout1 p hp).1) (fun p hp => (houtT p hp).1) rfl]
    simp
  · rw [editsFor_append]
    rw [show editsFor ((o1 ++ A :: oT).map (fun p =>
          Action.send p.id (send_to_subscribed_channels subs (deliver p.id) p.subsystem))) B.id
        = [] from editsFor_map_sends _ _ _]
    rw [editsFor_decomp_acts subs deliver t1.message_map oM1 oM2 B B.id _
      (fun p hp => (houtM1 p hp).2) (fun p hp => (houtM2 p hp).2) hBact
      (by simp [isEditFor])]
    simp
  · rw [sendsFor_append]
    rw [show sendsFor ((o1 ++ A :: oT).map (fun p =>
          Action.send p.id (send_to_subscribed_channels subs (deliver p.id) p.subsystem))) B.id
        = [] from sendsFor_map_sends _ _ _ (by
          intro p hp
          rcases List.mem_append.mp hp with h1 | h2
          · exact (hout1 p h1).2
          · rcases List.mem_cons.mp h2 with he | h3
            · subst he; exact hAB
            · exact (houtT p h3).2)]
    rw [show sendsFor ((oM1 ++ B :: oM2).map (routeAct subs deliver t1.message_map)) B.id
        = [] from sendsFor_map_acts_edit subs deliver t1.message_map oM1 oM2 B B.id
          (fun p hp => (houtM1 p hp).2) (fun p hp => (houtM2 p hp).2)
          (by rw [hBact]; rfl)]
    rfl
  · rw [show (o1 ++ A :: oT).map (fun p =>
          Action.send p.id (send_to_subscribed_channels subs (deliver p.id) p.subsystem))
        ++ (oM1 ++ B :: oM2).map (routeAct subs deliver t1.message_map)
      = o1.map (fun p =>
          Action.send p.id (send_to_subscribed_channels subs (deliver p.id) p.subsystem))
        ++ Action.send A.id (send_to_subscribed_channels subs (deliver A.id) A.subsystem)
          :: (oT.map (fun p =>
                Action.send p.id (send_to_subscribed_channels subs (deliver p.id) p.subsystem))
              ++ (oM1 ++ B :: oM2).map (routeAct subs deliver t1.message_map))
      from by simp [List.map_append, List.map_cons, List.append_assoc]]
    rw [afterFirst_split _ _ _ (by
      intro x hx he
      obtain ⟨p, hp, hpe⟩ := List.mem_map.mp hx
      rw [← hpe] at he
      injection he with h1 h2
      exact (hout1 p hp).1 h1)]
    apply List.mem_cons_of_mem
    apply List.mem_append_right
    rw [List.map_append, List.map_cons, hBact]
    exact List.mem_append_right _ (List.mem_cons_self _ _)

/-- Witness for C1 (amended), at the two-event batch [msgA, msgB] with one
subscribed sink whose delivery succeeds. -/
theorem c1_router_ordering_witness :
    sendsFor (check_subsystem_activity subsX delOK 1000 st0
          ([] ++ msgA :: [] ++ msgB :: [])).2 msgA.id
        = [Action.send msgA.id (send_to_subscribed_channels subsX (delOK msgA.id) msgA.subsystem)]
      ∧ editsFor (check_subsystem_activity subsX delOK 1000 st0
            ([] ++ msgA :: [] ++ msgB :: [])).2 msgB.id
        = [Action.edit msgB.id (send_to_subscribed_channels subsX (delOK msgA.id) msgA.subsystem)]
      ∧ sendsFor (check_subsystem_activity subsX delOK 1000 st0
            ([] ++ msgA :: [] ++ msgB :: [])).2 msgB.id = []
      ∧ dget (check_subsystem_activity subsX delOK 1000 st0
            ([] ++ msgA :: [] ++ msgB :: [])).1.tracker.message_map msgA.id
        = some (send_to_subscribed_channels subsX (delOK msgA.id) msgA.subsystem)
      ∧ Action.edit msgB.id (send_to_subscribed_channels subsX (delOK msgA.id) msgA.subsystem)
          ∈ afterFirst (check_subsystem_activity subsX delOK 1000 st0
                ([] ++ msgA :: [] ++ msgB :: [])).2
              (Action.send msgA.id (send_to_subscribed_channels subsX (delOK msgA.id) msgA.subsystem)) :=
  c1_router_ordering subsX delOK 1000 st0 [] [] [] msgA msgB
    (by decide) (by decide) (by decide) (by decide) (by decide) (by decide)
    (by simp) (by simp) (by simp) (by simp) (by simp) (by simp)
    (by decide) (by decide)

/-- Counterexample to claim C1 as stated: the batch [msgA, msgBY] contains the
submission A (id X) and a merge event whose refs CONTAIN X but start with the
older thread message Y, for which a stale record exists; both sink deliveries
for A succeed, yet the EDIT is applied to the handles of Y, not to the handles
recorded for A. -/
theorem c1_counterexample :
    (check_subsystem_activity subsX delOK 1000 stY [msgA, msgBY]).2
        = [Action.send "X" [(CKey.int 1, 101)], Action.edit "B1" [(CKey.int 9, 9)]]
      ∧ dget (check_subsystem_activity subsX delOK 1000 stY
            [msgA, msgBY]).1.tracker.message_map "X"
        = some [(CKey.int 1, 101)]
      ∧ ([(CKey.int 9, 9)] : HandleMap) ≠ [(CKey.int 1, 101)] := by decide

/-- Claim C2 (amended): get_channel_messages_by_refs returns the handle list of
the first ref in the list, in list order, whose stored record is NON-EMPTY
(a ref whose stored record is the empty mapping is skipped, because the source
tests the mapping for truthiness, not for presence), and returns the empty
mapping when no ref has a non-empty record, in particular for an empty refs
list. -/
theorem c2_resolve_first_nonempty (mm : List (String × HandleMap)) (refs : List String) :
    get_channel_messages_by_refs mm refs
      = (refs.filterMap (fun r =>
          match dget mm r with
          | some hm => if hm.isEmpty then none else some hm
          | none => none)).headD [] := by
  induction refs with
  | nil => rfl
  | cons r rest ih =>
    cases hg : dget mm r with
    | none =>
      simp only [get_channel_messages_by_refs, hg, List.filterMap_cons]
      exact ih
    | some hm =>
      by_cases he : hm.isEmpty = true
      · simp only [get_channel_messages_by_refs, hg, he, if_true, List.filterMap_cons]
        exact ih
      · simp only [Bool.not_eq_true] at he
        simp only [get_channel_messages_by_refs, hg, he, Bool.false_eq_true, if_false,
          List.filterMap_cons, List.headD_cons]

/-- Witness for C2 at a concrete store and refs list. -/
theorem c2_resolve_first_nonempty_witness :
    get_channel_messages_by_refs [("X", []), ("Y", [(CKey.int 1, 2)])] ["Z", "X", "Y"]
      = ((["Z", "X", "Y"].filterMap (fun r =>
          match dget [("X", []), ("Y", [(CKey.int 1, 2)])] r with
          | some hm => if hm.isEmpty then none else some hm
          | none => none)).headD []) :=
  c2_resolve_first_nonempty [("X", []), ("Y", [(CKey.int 1, 2)])] ["Z", "X", "Y"]

/-- Counterexample to claim C2 as stated: X is the first ref in the list with a
stored record (the empty mapping), yet the function skips it and returns the
record of the later ref Y. -/
theorem c2_counterexample :
    dget [("X", ([] : HandleMap)), ("Y", [(CKey.int 1, 2)])] "X" = some []
      ∧ get_channel_messages_by_refs [("X", []), ("Y", [(CKey.int 1, 2)])] ["X", "Y"]
        = [(CKey.int 1, 2)]
      ∧ ([(CKey.int 1, 2)] : HandleMap) ≠ [] := by decide

/-- Claim C3: store does write the file synchronously before returning, but the
JSON round trip stringifies the integer channel-id keys, so reloading the store
changes the result of resolve: before the restart resolve([X]) returns the
int-keyed mapping, after the restart the str-keyed one, and the two differ,
which also breaks the subsequent edit lookup that compares channel ids as
integers. -/
theorem c3_reload_changes_resolve :
    (store true ⟨[], [], [], []⟩ "X" [(CKey.int 123, 456)]).disk_map
        = jsonDumpMap (store true ⟨[], [], [], []⟩ "X" [(CKey.int 123, 456)]).message_map
      ∧ get_channel_messages_by_refs
            (store true ⟨[], [], [], []⟩ "X" [(CKey.int 123, 456)]).message_map ["X"]
          = [(CKey.int 123, 456)]
      ∧ get_channel_messages_by_refs
            (reloadTracker (store true ⟨[], [], [], []⟩ "X" [(CKey.int 123, 456)])).message_map ["X"]
          = [(CKey.str "123", 456)]
      ∧ ([(CKey.str "123", 456)] : HandleMap) ≠ [(CKey.int 123, 456)] := by decide

/-- Claim C4: processing the same event twice yields exactly one SEND — a
duplicate inside the same batch is suppressed, and a later cycle over the same
event leaves the whole state exactly unchanged and emits nothing; likewise for
the pr-tracker-bot checker. -/
theorem c4_duplicate_suppressed
    (subs : List Subscription) (deliver : String → Nat → Option Nat)
    (now now2 : Nat) (st : BotState) (m m2 : Msg)
    (hc : isPullCandidate m = true) (hfresh : dmem st.lore.seen m.id = false)
    (hnow : 0 < now)
    (hc2 : isBotSender m2 = true) (hfresh2 : dmem st.lore.seen m2.id = false) :
    (check_subsystem_activity subs deliver now st [m, m]).2
        = [Action.send m.id (send_to_subscribed_channels subs (deliver m.id) m.subsystem)]
      ∧ check_subsystem_activity subs deliver now2
            (check_subsystem_activity subs deliver now st [m, m]).1 [m]
          = ((check_subsystem_activity subs deliver now st [m, m]).1, [])
      ∧ (check_pr_bot_messages true now st.lore [m2, m2]).2 = [m2]
      ∧ check_pr_bot_messages true now2
            (check_pr_bot_messages true now st.lore [m2, m2]).1 [m2]
          = ((check_pr_bot_messages true now st.lore [m2, m2]).1, []) := by
  have hbot : isBotSender m = false := bot_false_of_candidate m hc
  have eS1 : scanStep isPullCandidate true now st.lore m
      = (saveSeen true now { st.lore with seen := dinsert st.lore.seen m.id now }, [m]) :=
    scanStep_fresh _ _ _ _ _ hc hfresh
  set s1 := saveSeen true now { st.lore with seen := dinsert st.lore.seen m.id now } with hs1
  have hget1 : dget s1.seen m.id = some now := by
    rw [hs1]; exact saveSeen_get_some _ _ _ _ (dget_dinsert_self _ _ _) hnow
  have hseen1 : dmem s1.seen m.id = true := by unfold dmem; rw [hget1]; rfl
  have e1 : scanList isPullCandidate true now st.lore [m, m] = (s1, [m]) := by
    rw [scanList_cons, eS1]
    dsimp only
    rw [scanList_cons, scanStep_seen _ _ _ _ _ hc hseen1]
    dsimp only
    rfl
  have e2 : scanList isBotSender true now s1 [m, m] = (s1, []) := by
    rw [scanList_cons, scanStep_not _ _ _ _ _ hbot]
    dsimp only
    rw [scanList_cons, scanStep_not _ _ _ _ _ hbot]
    dsimp only
    rfl
  have hrA : check_subsystem_activity subs deliver now st [m, m]
      = (⟨(scanList isBotSender true now
              (scanList isPullCandidate true now st.lore [m, m]).1 [m, m]).1,
          (routeMerges subs deliver
            (routePulls subs deliver st.tracker
              (scanList isPullCandidate true now st.lore [m, m]).2).1
            (scanList isBotSender true now
              (scanList isPullCandidate true now st.lore [m, m]).1 [m, m]).2).1⟩,
         (routePulls subs deliver st.tracker
            (scanList isPullCandidate true now st.lore [m, m]).2).2
           ++ (routeMerges subs deliver
                (routePulls subs deliver st.tracker
                  (scanList isPullCandidate true now st.lore [m, m]).2).1
                (scanList isBotSender true now
                  (scanList isPullCandidate true now st.lore [m, m]).1 [m, m]).2).2) := rfl
  have hcy1 : check_subsystem_activity subs deliver now st [m, m]
      = (⟨s1, (routePulls subs deliver st.tracker [m]).1⟩,
         [Action.send m.id (send_to_subscribed_channels subs (deliver m.id) m.subsystem)]) := by
    rw [hrA, e1]
    dsimp only
    rw [e2]
    dsimp only
    rw [routeMerges_nil]
    dsimp only
    rw [routePulls_acts]
    simp
  have e3 : scanList isPullCandidate true now2 s1 [m] = (s1, []) := by
    rw [scanList_cons, scanStep_seen _ _ _ _ _ hc hseen1]
    dsimp only
    rfl
  have e4 : scanList isBotSender true now2 s1 [m] = (s1, []) := by
    rw [scanList_cons, scanStep_not _ _ _ _ _ hbot]
    dsimp only
    rfl
  have hrB : ∀ tr : TrackerState, check_subsystem_activity subs deliver now2 ⟨s1, tr⟩ [m]
      = (⟨(scanList isBotSender true now2
              (scanList isPullCandidate true now2 s1 [m]).1 [m]).1,
          (routeMerges subs deliver
            (routePulls subs deliver tr (scanList isPullCandidate true now2 s1 [m]).2).1
            (scanList isBotSender true now2
              (scanList isPullCandidate true now2 s1 [m]).1 [m]).2).1⟩,
         (routePulls subs deliver tr (scanList isPullCandidate true now2 s1 [m]).2).2
           ++ (routeMerges subs deliver
                (routePulls subs deliver tr (scanList isPullCandidate true now2 s1 [m]).2).1
                (scanList isBotSender true now2
                  (scanList isPullCandidate true now2 s1 [m]).1 [m]).2).2) :=
    fun _ => rfl
  have eB1 : scanStep isBotSender true now st.lore m2
      = (saveSeen true now { st.lore with seen := dinsert st.lore.seen m2.id now }, [m2]) :=
    scanStep_fresh _ _ _ _ _ hc2 hfresh2
  set sB := saveSeen true now { st.lore with seen := dinsert st.lore.seen m2.id now } with hsB
  have hgetB : dget sB.seen m2.id = some now := by
    rw [hsB]; exact saveSeen_get_some _ _ _ _ (dget_dinsert_self _ _ _) hnow
  have hseenB : dmem sB.seen m2.id = true := by unfold dmem; rw [hgetB]; rfl
  have e5 : check_pr_bot_messages true now st.lore [m2, m2] = (sB, [m2]) := by
    unfold check_pr_bot_messages
    rw [scanList_cons, eB1]
    dsimp only
    rw [scanList_cons, scanStep_seen _ _ _ _ _ hc2 hseenB]
    dsimp only
    rfl
  have e6 : check_pr_bot_messages true now2 sB [m2] = (sB, []) := by
    unfold check_pr_bot_messages
    rw [scanList_cons, scanStep_seen _ _ _ _ _ hc2 hseenB]
    dsimp only
    rfl
  refine ⟨?_, ?_, ?_, ?_⟩
  · rw [hcy1]
  · rw [hcy1]
    dsimp only
    rw [hrB, e3]
    dsimp only
    rw [e4]
    dsimp only
    rw [routePulls_nil]
    dsimp only
    rw [routeMerges_nil]
    dsimp only
    rfl
  · rw [e5]
  · rw [e5]
    dsimp only
    exact e6

/-- Witness for C4 at concrete events msgA (submission) and msgB (merge
confirmation). -/
theorem c4_duplicate_suppressed_witness :
    (check_subsystem_activity subsX delOK 1000 st0 [msgA, msgA]).2
        = [Action.send msgA.id (send_to_subscribed_channels subsX (delOK msgA.id) msgA.subsystem)]
      ∧ check_subsystem_activity subsX delOK 2000
            (check_subsystem_activity subsX delOK 1000 st0 [msgA, msgA]).1 [msgA]
          = ((check_subsystem_activity subsX delOK 1000 st0 [msgA, msgA]).1, [])
      ∧ (check_pr_bot_messages true 1000 st0.lore [msgB, msgB]).2 = [msgB]
      ∧ check_pr_bot_messages true 2000
            (check_pr_bot_messages true 1000 st0.lore [msgB, msgB]).1 [msgB]
          = ((check_pr_bot_messages true 1000 st0.lore [msgB, msgB]).1, []) :=
  c4_duplicate_suppressed subsX delOK 1000 2000 st0 msgA msgB
    (by decide) (by decide) (by decide) (by decide) (by decide)

/-- Claim C5 (amended): when the durable write fails, the failure is logged and
swallowed — the event is still marked seen in the in-memory dedup state and is
still emitted; only the on-disk file stays unchanged. Consequently the event is
suppressed, not reprocessed, in any later cycle of the same process, and it is
reprocessed as new only after a process restart reloads the stale file.
Likewise store with a failed write still updates the in-memory correlation map
and leaves the file unchanged. -/
theorem c5_failed_write
    (st : LoreState) (m : Msg) (now now2 now3 : Nat) (w2 : Bool)
    (tr : TrackerState) (id : String) (hm : HandleMap)
    (hc : isPullCandidate m = true) (hfresh : dmem st.seen m.id = false)
    (hnow : 0 < now) (hdiskfresh : dmem st.disk m.id = false) :
    (check_git_pull_requests false now st [m]).2 = [m]
      ∧ dmem (check_git_pull_requests false now st [m]).1.seen m.id = true
      ∧ (check_git_pull_requests false now st [m]).1.disk = st.disk
      ∧ check_git_pull_requests w2 now2 (check_git_pull_requests false now st [m]).1 [m]
          = ((check_git_pull_requests false now st [m]).1, [])
      ∧ (check_git_pull_requests true now3
            (reloadLore (check_git_pull_requests false now st [m]).1) [m]).2 = [m]
      ∧ (store false tr id hm).message_map = dinsert tr.message_map id hm
      ∧ (store false tr id hm).disk_map = tr.disk_map := by
  have eS1 : scanStep isPullCandidate false now st m
      = (saveSeen false now { st with seen := dinsert st.seen m.id now }, [m]) :=
    scanStep_fresh _ _ _ _ _ hc hfresh
  set s1 := saveSeen false now { st with seen := dinsert st.seen m.id now } with hs1
  have hget1 : dget s1.seen m.id = some now := by
    rw [hs1]; exact saveSeen_get_some _ _ _ _ (dget_dinsert_self _ _ _) hnow
  have hseen1 : dmem s1.seen m.id = true := by unfold dmem; rw [hget1]; rfl
  have hdisk1 : s1.disk = st.disk := by rw [hs1]; rfl
  have e1 : check_git_pull_requests false now st [m] = (s1, [m]) := by
    unfold check_git_pull_requests
    rw [scanList_cons, eS1]
    dsimp only
    rfl
  have e2 : check_git_pull_requests w2 now2 s1 [m] = (s1, []) := by
    unfold check_git_pull_requests
    rw [scanList_cons, scanStep_seen _ _ _ _ _ hc hseen1]
    dsimp only
    rfl
  have hreload : reloadLore s1 = ⟨st.disk, st.disk⟩ := by
    unfold reloadLore
    rw [hdisk1]
  have e3 : (check_git_pull_requests true now3 (reloadLore s1) [m]).2 = [m] := by
    rw [hreload]
    unfold check_git_pull_requests
    rw [scanList_cons, scanStep_fresh _ _ _ _ _ hc hdiskfresh]
    dsimp only
    rfl
  refine ⟨?_, ?_, ?_, ?_, ?_, rfl, rfl⟩
  · rw [e1]
  · rw [e1]
    exact hseen1
  · rw [e1, hdisk1]
  · rw [e1]
    dsimp only
    exact e2
  · rw [e1]
    dsimp only
    exact e3

/-- Witness for C5 (amended) at the concrete event msgA with a failing disk. -/
theorem c5_failed_write_witness :
    (check_git_pull_requests false 1000 ⟨[], []⟩ [msgA]).2 = [msgA]
      ∧ dmem (check_git_pull_requests false 1000 ⟨[], []⟩ [msgA]).1.seen msgA.id = true
      ∧ (check_git_pull_requests false 1000 ⟨[], []⟩ [msgA]).1.disk = LoreState.disk ⟨[], []⟩
      ∧ check_git_pull_requests true 2000
            (check_git_pull_requests false 1000 ⟨[], []⟩ [msgA]).1 [msgA]
          = ((check_git_pull_requests false 1000 ⟨[], []⟩ [msgA]).1, [])
      ∧ (check_git_pull_requests true 3000
            (reloadLore (check_git_pull_requests false 1000 ⟨[], []⟩ [msgA]).1) [msgA]).2 = [msgA]
      ∧ (store false ⟨[], [], [], []⟩ "X" [(CKey.int 1, 101)]).message_map
          = dinsert ([] : List (String × HandleMap)) "X" [(CKey.int 1, 101)]
      ∧ (store false ⟨[], [], [], []⟩ "X" [(CKey.int 1, 101)]).disk_map = [] :=
  c5_failed_write ⟨[], []⟩ msgA 1000 2000 3000 true
    ⟨[], [], [], []⟩ "X" [(CKey.int 1, 101)]
    (by decide) (by decide) (by decide) (by decide)

/-- Counterexample to claim C5 as stated: after a failed durable write the
dedup state is NOT left unchanged (the event is marked seen in memory), and the
event is NOT reprocessed as new in the next cycle of the same process. -/
theorem c5_counterexample :
    dmem (check_git_pull_requests false 1000 ⟨[], []⟩ [msgA]).1.seen "X" = true
      ∧ (check_git_pull_requests false 1000 ⟨[], []⟩ [msgA]).1.seen ≠ []
      ∧ (check_git_pull_requests false 2000
            (check_git_pull_requests false 1000 ⟨[], []⟩ [msgA]).1 [msgA]).2 = []
      ∧ dget (store false ⟨[], [], [], []⟩ "X" [(CKey.int 1, 101)]).message_map "X"
          = some [(CKey.int 1, 101)] := by decide

theorem routePulls_single (subs : List Subscription)
    (deliver : String → Nat → Option Nat) (tr : TrackerState) (m : Msg) :
    routePulls subs deliver tr [m]
      = (if (send_to_subscribed_channels subs (deliver m.id) m.subsystem).isEmpty then tr
         else add_pending_pr true
           (store true tr m.id (send_to_subscribed_channels subs (deliver m.id) m.subsystem)) m,
         [Action.send m.id (send_to_subscribed_channels subs (deliver m.id) m.subsystem)]) := rfl

/-- Claim C6 (amended): one sink failing does not prevent delivery to the other
sinks, and mark_seen commits (in memory and to its file) even when every sink
delivery fails; but the correlation record and the pending entry are written
only when at least one sink delivery succeeded — when every delivery fails the
submission is marked seen yet record/add_pending are skipped. -/
theorem c6_fanout_bookkeeping
    (subs : List Subscription) (deliver0 : Nat → Option Nat)
    (deliver : String → Nat → Option Nat)
    (sub : Subscription) (mid : Nat) (s : String)
    (st : BotState) (m : Msg) (now : Nat)
    (hsub : sub ∈ subs)
    (hmatch : (sub.subsystems.contains "*" || sub.subsystems.contains s) = true)
    (hdel : deliver0 sub.channelId = some mid)
    (hc : isPullCandidate m = true)
    (hfresh : dmem st.lore.seen m.id = false)
    (hnow : 0 < now)
    (hcm : (send_to_subscribed_channels subs (deliver m.id) m.subsystem).isEmpty = false) :
    dmem (send_to_subscribed_channels subs deliver0 s) (CKey.int sub.channelId) = true
      ∧ (check_subsystem_activity subs (fun _ _ => none) now st [m]).1.tracker = st.tracker
      ∧ dmem (check_subsystem_activity subs (fun _ _ => none) now st [m]).1.lore.seen m.id = true
      ∧ dmem (check_subsystem_activity subs (fun _ _ => none) now st [m]).1.lore.disk m.id = true
      ∧ (check_subsystem_activity subs (fun _ _ => none) now st [m]).2 = [Action.send m.id []]
      ∧ dget (check_subsystem_activity subs deliver now st [m]).1.tracker.message_map m.id
          = some (send_to_subscribed_channels subs (deliver m.id) m.subsystem)
      ∧ dmem (check_subsystem_activity subs deliver now st [m]).1.tracker.pending_prs m.id
          = true := by
  have hbot : isBotSender m = false := bot_false_of_candidate m hc
  have eS1 : scanStep isPullCandidate true now st.lore m
      = (saveSeen true now { st.lore with seen := dinsert st.lore.seen m.id now }, [m]) :=
    scanStep_fresh _ _ _ _ _ hc hfresh
  set s1 := saveSeen true now { st.lore with seen := dinsert st.lore.seen m.id now } with hs1
  have hget1 : dget s1.seen m.id = some now := by
    rw [hs1]; exact saveSeen_get_some _ _ _ _ (dget_dinsert_self _ _ _) hnow
  have hseen1 : dmem s1.seen m.id = true := by unfold dmem; rw [hget1]; rfl
  have hdisk1 : s1.disk = s1.seen := by rw [hs1]; rfl
  have e1 : scanList isPullCandidate true now st.lore [m] = (s1, [m]) := by
    rw [scanList_cons, eS1]
    dsimp only
    rfl
  have e2 : scanList isBotSender true now s1 [m] = (s1, []) := by
    rw [scanList_cons, scanStep_not _ _ _ _ _ hbot]
    dsimp only
    rfl
  have hrA : ∀ dv : String → Nat → Option Nat,
      check_subsystem_activity subs dv now st [m]
      = (⟨(scanList isBotSender true now
              (scanList isPullCandidate true now st.lore [m]).1 [m]).1,
          (routeMerges subs dv
            (routePulls subs dv st.tracker
              (scanList isPullCandidate true now st.lore [m]).2).1
            (scanList isBotSender true now
              (scanList isPullCandidate true now st.lore [m]).1 [m]).2).1⟩,
         (routePulls subs dv st.tracker
            (scanList isPullCandidate true now st.lore [m]).2).2
           ++ (routeMerges subs dv
                (routePulls subs dv st.tracker
                  (scanList isPullCandidate true now st.lore [m]).2).1
                (scanList isBotSender true now
                  (scanList isPullCandidate true now st.lore [m]).1 [m]).2).2) :=
    fun _ => rfl
  have hcm0 : send_to_subscribed_channels subs
      ((fun (_ : String) (_ : Nat) => (none : Option Nat)) m.id) m.subsystem = [] :=
    sendLoop_allfail m.subsystem subs []
  have hfail : check_subsystem_activity subs (fun _ _ => none) now st [m]
      = (⟨s1, st.tracker⟩, [Action.send m.id []]) := by
    rw [hrA, e1]
    dsimp only
    rw [e2]
    dsimp only
    rw [routeMerges_nil]
    dsimp only
    rw [routePulls_single, hcm0]
    dsimp only
    rfl
  have hok : check_subsystem_activity subs deliver now st [m]
      = (⟨s1, add_pending_pr true
            (store true st.tracker m.id
              (send_to_subscribed_channels subs (deliver m.id) m.subsystem)) m⟩,
         [Action.send m.id (send_to_subscribed_channels subs (deliver m.id) m.subsystem)]) := by
    rw [hrA, e1]
    dsimp only
    rw [e2]
    dsimp only
    rw [routeMerges_nil]
    dsimp only
    rw [routePulls_single]
    simp only [hcm, Bool.false_eq_true, if_false]
    rfl
  refine ⟨?_, ?_, ?_, ?_, ?_, ?_, ?_⟩
  · exact sendLoop_mem_of deliver0 s subs [] sub mid hsub hmatch hdel
  · rw [hfail]
  · rw [hfail]
    exact hseen1
  · rw [hfail]
    dsimp only
    rw [hdisk1]
    exact hseen1
  · rw [hfail]
  · rw [hok]
    dsimp only
    rw [show (add_pending_pr true
        (store true st.tracker m.id
          (send_to_subscribed_channels subs (deliver m.id) m.subsystem)) m).message_map
      = dinsert st.tracker.message_map m.id
          (send_to_subscribed_channels subs (deliver m.id) m.subsystem) from rfl]
    exact dget_dinsert_self _ _ _
  · rw [hok]
    dsimp only
    rw [show (add_pending_pr true
        (store true st.tracker m.id
          (send_to_subscribed_channels subs (deliver m.id) m.subsystem)) m).pending_prs
      = dinsert st.tracker.pending_prs m.id (pendingOf m) from rfl]
    rw [dmem_dinsert]
    simp

/-- Witness for C6 (amended) at the concrete event msgA and the x86 sink. -/
theorem c6_fanout_bookkeeping_witness :
    dmem (send_to_subscribed_channels subsX (fun _ => some 77) "x86") (CKey.int 1) = true
      ∧ (check_subsystem_activity subsX (fun _ _ => none) 1000 st0 [msgA]).1.tracker
          = st0.tracker
      ∧ dmem (check_subsystem_activity subsX (fun _ _ => none) 1000 st0 [msgA]).1.lore.seen
          msgA.id = true
      ∧ dmem (check_subsystem_activity subsX (fun _ _ => none) 1000 st0 [msgA]).1.lore.disk
          msgA.id = true
      ∧ (check_subsystem_activity subsX (fun _ _ => none) 1000 st0 [msgA]).2
          = [Action.send msgA.id []]
      ∧ dget (check_subsystem_activity subsX delOK 1000 st0 [msgA]).1.tracker.message_map
          msgA.id = some (send_to_subscribed_channels subsX (delOK msgA.id) msgA.subsystem)
      ∧ dmem (check_subsystem_activity subsX delOK 1000 st0 [msgA]).1.tracker.pending_prs
          msgA.id = true :=
  c6_fanout_bookkeeping subsX (fun _ => some 77) delOK ⟨1, ["x86"]⟩ 77 "x86" st0 msgA 1000
    (by decide) (by decide) (by decide) (by decide) (by decide) (by decide) (by decide)

/-- Counterexample to claim C6 as stated: with one subscribed sink whose
delivery fails, the submission is marked seen but record and add_pending do NOT
commit — the correlation map and the pending store stay empty. -/
theorem c6_counterexample :
    dmem (check_subsystem_activity subsX (fun _ _ => none) 1000 st0 [msgA]).1.lore.seen "X"
        = true
      ∧ dget (check_subsystem_activity subsX (fun _ _ => none) 1000 st0
            [msgA]).1.tracker.message_map "X" = none
      ∧ dmem (check_subsystem_activity subsX (fun _ _ => none) 1000 st0
            [msgA]).1.tracker.pending_prs "X" = false := by decide

/-- Claim C7: at the end of a poll cycle over a state holding a pending PR far
older than the 21-day horizon, NOTHING is evicted — the call
message_tracker.cleanup_old_pending_prs(max_age_days=21) names a method that
MessageTracker does not define, the resulting AttributeError is swallowed by
the surrounding handler, and the whole cycle is a no-op on this state: the
stale pending entry survives every cycle. -/
theorem c7_pending_eviction_never_runs :
    check_subsystem_activity subsX delOK 1000 stOld [] = (stOld, [])
      ∧ dmem stOld.tracker.pending_prs "OLD" = true
      ∧ cleanup_old_pending_prs_call stOld.tracker
        = Except.error
            "AttributeError: MessageTracker has no attribute cleanup_old_pending_prs" :=
  ⟨by decide, by decide, rfl⟩

/-- Claim C8: with every delivery succeeding, SEND reaches exactly those sinks
whose subscribed set contains the wildcard or the event subsystem; in the
concrete examples, an x86 event reaches both the wildcard sink and the x86
sink, while an nvdimm event reaches only the wildcard sink. -/
theorem c8_subsystem_fanout :
    (∀ (subs : List Subscription) (mid : Nat → Nat) (s : String) (c : Nat),
        dmem (send_to_subscribed_channels subs (fun ch => some (mid ch)) s) (CKey.int c)
          = subs.any (fun sub => decide (c = sub.channelId)
              && (sub.subsystems.contains "*" || sub.subsystems.contains s)))
      ∧ dmem (send_to_subscribed_channels [⟨1, ["x86", "*"]⟩, ⟨2, ["x86"]⟩]
            (fun ch => some ch) "x86") (CKey.int 1) = true
      ∧ dmem (send_to_subscribed_channels [⟨1, ["x86", "*"]⟩, ⟨2, ["x86"]⟩]
            (fun ch => some ch) "x86") (CKey.int 2) = true
      ∧ dmem (send_to_subscribed_channels [⟨1, ["x86", "*"]⟩, ⟨2, ["x86"]⟩]
            (fun ch => some ch) "nvdimm") (CKey.int 1) = true
      ∧ dmem (send_to_subscribed_channels [⟨1, ["x86", "*"]⟩, ⟨2, ["x86"]⟩]
            (fun ch => some ch) "nvdimm") (CKey.int 2) = false := by
  refine ⟨?_, by decide, by decide, by decide, by decide⟩
  intro subs mid s c
  unfold send_to_subscribed_channels
  rw [sendLoop_allok]
  simp [dmem, dget, CKey.int.injEq]

/-- Witness for C8 at one concrete subscription list and channel. -/
theorem c8_subsystem_fanout_witness :
    dmem (send_to_subscribed_channels [⟨1, ["x86"]⟩, ⟨2, ["nvdimm"]⟩]
        (fun ch => some (ch + 50)) "nvdimm") (CKey.int 2)
      = List.any ([⟨1, ["x86"]⟩, ⟨2, ["nvdimm"]⟩] : List Subscription)
          (fun sub => decide (2 = sub.channelId)
            && (sub.subsystems.contains "*" || sub.subsystems.contains "nvdimm")) :=
  c8_subsystem_fanout.1 [⟨1, ["x86"]⟩, ⟨2, ["nvdimm"]⟩] (fun ch => ch + 50) "nvdimm" 2

/-- Claim C9: on the first successful observation of a source, both release
monitors record the observed tag and report nothing; a notification is
produced exactly when a later observation differs from the recorded tag, and
the recorded tag is updated; an unchanged observation reports nothing. -/
theorem c9_first_observation
    (t old : String) (map1 map2 map3 : List (String × String)) (name : String)
    (hold : old ≠ "") (holdne : old ≠ t)
    (hnone : dget map1 name = none)
    (hprev : dget map2 name = some old)
    (hsame : dget map3 name = some t) :
    check_for_new_release none (some t) = (some t, none)
      ∧ check_for_new_release (some old) (some t) = (some t, some (t, old))
      ∧ check_for_new_release (some t) (some t) = (some t, none)
      ∧ github_check_project map1 name (some t) = (dinsert map1 name t, none)
      ∧ github_check_project map2 name (some t) = (dinsert map2 name t, some (t, old))
      ∧ github_check_project map3 name (some t) = (map3, none) := by
  refine ⟨?_, ?_, ?_, ?_, ?_, ?_⟩
  · simp [check_for_new_release]
  · simp [check_for_new_release, holdne, hold]
  · simp [check_for_new_release]
  · simp [github_check_project, hnone]
  · simp [github_check_project, hprev, holdne, hold]
  · simp [github_check_project, hsame]

/-- Witness for C9 at concrete tags and concrete project maps. -/
theorem c9_first_observation_witness :
    check_for_new_release none (some "v6.13") = (some "v6.13", none)
      ∧ check_for_new_release (some "v6.12") (some "v6.13")
        = (some "v6.13", some ("v6.13", "v6.12"))
      ∧ check_for_new_release (some "v6.13") (some "v6.13") = (some "v6.13", none)
      ∧ github_check_project [("ndctl", "v78")] "cxl" (some "v6.13")
          = (dinsert [("ndctl", "v78")] "cxl" "v6.13", none)
      ∧ github_check_project [("cxl", "v6.12")] "cxl" (some "v6.13")
          = (dinsert [("cxl", "v6.12")] "cxl" "v6.13", some ("v6.13", "v6.12"))
      ∧ github_check_project [("cxl", "v6.13")] "cxl" (some "v6.13")
          = ([("cxl", "v6.13")], none) :=
  c9_first_observation "v6.13" "v6.12" [("ndctl", "v78")] [("cxl", "v6.12")]
    [("cxl", "v6.13")] "cxl" (by decide) (by decide) (by decide) (by decide) (by decide)

/-- Claim C10 (amended): for every bound of at least one, cleanup_old_entries
leaves the map with at most max_entries entries; when the map is over the
bound it keeps exactly the final max_entries entries of the insertion order
and persists the result, leaving the pending store untouched; when the map is
within the bound the state is returned entirely unchanged, its file included.
(The bound zero is excluded: Python items[-0:] is the whole list.) -/
theorem c10_cleanup_bound (tr : TrackerState) (max_entries : Nat)
    (hpos : 0 < max_entries) :
    (tr.message_map.length ≤ max_entries → cleanup_old_entries tr max_entries = tr)
      ∧ (max_entries < tr.message_map.length →
          (cleanup_old_entries tr max_entries).message_map
              = tr.message_map.drop (tr.message_map.length - max_entries)
            ∧ (cleanup_old_entries tr max_entries).message_map.length = max_entries
            ∧ (cleanup_old_entries tr max_entries).disk_map
              = jsonDumpMap (cleanup_old_entries tr max_entries).message_map
            ∧ (cleanup_old_entries tr max_entries).pending_prs = tr.pending_prs
            ∧ (cleanup_old_entries tr max_entries).disk_pending = tr.disk_pending)
      ∧ (cleanup_old_entries tr max_entries).message_map.length ≤ max_entries := by
  have h0 : max_entries ≠ 0 := Nat.pos_iff_ne_zero.mp hpos
  by_cases hlen : max_entries < tr.message_map.length
  · have hle : ¬ tr.message_map.length ≤ max_entries := by omega
    have hcl : cleanup_old_entries tr max_entries
        = { tr with
            message_map := tr.message_map.drop (tr.message_map.length - max_entries)
            disk_map := jsonDumpMap
              (tr.message_map.drop (tr.message_map.length - max_entries)) } := by
      unfold cleanup_old_entries pySliceLast
      rw [if_pos hlen, if_neg h0]
    refine ⟨fun h => absurd h hle, fun _ => ⟨?_, ?_, ?_, ?_, ?_⟩, ?_⟩
    · rw [hcl]
    · rw [hcl]
      simp only [List.length_drop]
      omega
    · rw [hcl]
    · rw [hcl]
    · rw [hcl]
    · rw [hcl]
      simp only [List.length_drop]
      omega
  · have hcl : cleanup_old_entries tr max_entries = tr := by
      unfold cleanup_old_entries
      rw [if_neg hlen]
    refine ⟨fun _ => hcl, fun h => absurd h hlen, ?_⟩
    rw [hcl]
    omega

/-- Witness for C10 (amended) at a concrete two-entry map and bound one: the
result is cut down to at most one entry. -/
theorem c10_cleanup_bound_witness :
    (cleanup_old_entries
        ⟨[("a", [(CKey.int 1, 1)]), ("b", [(CKey.int 2, 2)])], [], [], []⟩ 1).message_map.length
      ≤ 1 :=
  (c10_cleanup_bound ⟨[("a", [(CKey.int 1, 1)]), ("b", [(CKey.int 2, 2)])], [], [], []⟩ 1
    (by decide)).2.2

/-- Counterexample to claim C10 as stated: at the bound zero the Python slice
items[-0:] keeps the whole list, so the map is left with one entry, not at
most zero, and the unchanged map is re-persisted. -/
theorem c10_counterexample :
    (cleanup_old_entries ⟨[("a", [(CKey.int 1, 1)])], [], [], []⟩ 0).message_map.length = 1
      ∧ ¬ ((cleanup_old_entries ⟨[("a", [(CKey.int 1, 1)])], [], [], []⟩ 0).message_map.length
            ≤ 0)
      ∧ (cleanup_old_entries ⟨[("a", [(CKey.int 1, 1)])], [], [], []⟩ 0).disk_map
          = jsonDumpMap [("a", [(CKey.int 1, 1)])] := by decide

end Folklore
